import Mathlib

/-!
Verification development for the pytenable-was repository: a shallow
embedding of its HTTP retry engine (src/http.py and
src/pytenable_was/http.py), TTL cache (src/cache.py), paginated
collectors (src/scans.py, src/vulns.py), bulk operations (src/scans.py,
src/plugins.py) and dictionary flattening (src/utils.py), together with
theorems about the behaviour of those functions.
-/

set_option autoImplicit false

namespace PytenableWas

/-- A JSON-like Python value: None, bool, number, string, list, dict.
Dicts are insertion-ordered association lists, as in Python. -/
inductive Val where
  | vnull : Val
  | vbool : Bool → Val
  | vnum : Int → Val
  | vstr : String → Val
  | vlist : List Val → Val
  | vdict : List (String × Val) → Val
  deriving Repr, Inhabited

/-- Errors defined in src/errors.py that the src/http.py client raises.
Fields of apiError mirror APIError.__init__(status, message, url, payload). -/
inductive WasError where
  | apiError : Nat → String → Option String → Option Val → WasError
  | throttleError : String → WasError
  | connectionError : String → WasError
  | timeoutError : String → WasError
  deriving Repr

/-- Raw Python exceptions relevant to the embedding: KeyError raised by a
missing dict key, AttributeError raised by a missing object attribute. -/
inductive PyExn where
  | keyError : String → PyExn
  | attributeError : String → PyExn
  deriving Repr, DecidableEq

/-- CacheKeyError from src/errors.py, raised by InMemoryCache.get on a miss;
carries the formatted key string. -/
inductive CacheError where
  | cacheKeyError : String → CacheError
  deriving Repr, DecidableEq

/-- The error raised by the src/pytenable_was/http.py client: TenableAPIError
with message, optional status_code and optional payload (parsed JSON or raw
text), exactly the keyword arguments passed at its call sites. -/
inductive PyError where
  | tenableAPIError : String → Option Nat → Option (Sum Val String) → PyError
  deriving Repr

/-- Errors observable from the scans/plugins API wrapper modules: the
TenableAPIError they raise and wrap, or an unwrapped raw Python exception
(for code paths with no try/except around the raising call). -/
inductive SdkError where
  | tenableAPIError : String → SdkError
  | pyExn : PyExn → SdkError
  deriving Repr, DecidableEq

/-- One HTTP response from the server: status code, raw body text, and the
result of attempting to parse the body as JSON (none when parsing fails). -/
structure HttpResponse where
  status : Nat
  text : String
  jsonVal : Option Val
  deriving Repr, Inhabited

/-- What one physical request attempt yields for the src/http.py client:
a response, or one of the two network-level exceptions it catches. -/
inductive NetEvent where
  | resp : HttpResponse → NetEvent
  | timeout : NetEvent
  | connError : NetEvent
  deriving Repr, Inhabited

/-- Outcome of HTTPClient._request in src/http.py: a parsed JSON value
(none for an empty body), a raised WasError, or an uncaught JSON decode
exception escaping from response.json(). -/
inductive SrcOutcome where
  | ok : Option Val → SrcOutcome
  | err : WasError → SrcOutcome
  | jsonDecodeError : SrcOutcome
  deriving Repr

/-- Trace of one call to src/http.py HTTPClient._request: the outcome, the
number of physical HTTP requests issued, and the list of sleep durations
(seconds) in order. -/
structure SrcTrace where
  result : SrcOutcome
  requests : Nat
  sleeps : List Nat
  deriving Repr

/-- The while loop of HTTPClient._request in src/http.py lines 72-132.
The parameter left is the number of loop iterations still allowed
(left = 5 - attempt, so the guard attempt < 5 is left > 0); respond n is
what the n-th physical request yields. On 429 the code sleeps 2 ^ attempt
seconds and retries; on any other status >= 400 it raises
APIError(status, response.text, url) with no payload; an empty body returns
None; otherwise the parsed JSON is returned. When the guard fails,
ThrottleError is raised. -/
def srcRequestLoop (respond : Nat → NetEvent) (url : String) :
    Nat → Nat → List Nat → SrcTrace
  | 0, attempt, sleeps =>
      ⟨.err (.throttleError
          ("Exceeded retry attempts after repeated 429 responses for " ++ url)),
        attempt, sleeps⟩
  | left + 1, attempt, sleeps =>
      match respond attempt with
      | .timeout =>
          ⟨.err (.timeoutError ("Timeout while calling " ++ url)),
            attempt + 1, sleeps⟩
      | .connError =>
          ⟨.err (.connectionError ("Connection failed for " ++ url)),
            attempt + 1, sleeps⟩
      | .resp r =>
          if r.status == 429 then
            srcRequestLoop respond url left (attempt + 1) (sleeps ++ [2 ^ attempt])
          else if 400 ≤ r.status then
            ⟨.err (.apiError r.status r.text (some url) none), attempt + 1, sleeps⟩
          else if r.text.trim == "" then
            ⟨.ok none, attempt + 1, sleeps⟩
          else
            match r.jsonVal with
            | some v => ⟨.ok (some v), attempt + 1, sleeps⟩
            | none => ⟨.jsonDecodeError, attempt + 1, sleeps⟩

/-- HTTPClient._request of src/http.py: run the retry loop with the fixed
maximum of 5 attempts, starting at attempt 0 with no sleeps recorded. -/
def srcRequest (respond : Nat → NetEvent) (url : String) : SrcTrace :=
  srcRequestLoop respond url 5 0 []

/-- What one request attempt yields for the src/pytenable_was/http.py client:
a response, or a requests.RequestException with its message. -/
inductive PyNetEvent where
  | resp : HttpResponse → PyNetEvent
  | exn : String → PyNetEvent
  deriving Repr, Inhabited

/-- Trace of one call to src/pytenable_was/http.py HTTPClient._request. -/
structure PyTrace where
  result : Except PyError (Option Val)
  requests : Nat
  sleeps : List Nat
  deriving Repr

/-- The payload attached to a TenableAPIError for a status >= 400 response in
src/pytenable_was/http.py lines 84-93: the body parsed as JSON when possible,
else the raw text. -/
def pyPayload (r : HttpResponse) : Sum Val String :=
  match r.jsonVal with
  | some v => Sum.inl v
  | none => Sum.inr r.text

/-- The while loop of HTTPClient._request in src/pytenable_was/http.py
lines 55-103. State: retries remaining (initially 5), current backoff
(initially 2, doubled after each sleep), index of the next physical request,
and sleeps recorded so far. A RequestException becomes a TenableAPIError at
once. On 429 with retries exhausted a TenableAPIError is raised; otherwise
the client sleeps backoff seconds and retries. On leaving the loop: a status
>= 400 raises TenableAPIError with the status code and parsed-or-raw payload
(and no URL); 204 returns None; otherwise the body must parse as JSON or a
TenableAPIError is raised. -/
def pyRequestLoop (respond : Nat → PyNetEvent) :
    Nat → Nat → Nat → List Nat → PyTrace
  | retries, backoff, n, sleeps =>
      match respond n with
      | .exn m =>
          ⟨.error (.tenableAPIError ("HTTP request failed: " ++ m) none none),
            n + 1, sleeps⟩
      | .resp r =>
          if r.status == 429 then
            match retries with
            | 0 =>
                ⟨.error (.tenableAPIError
                    "Too many retries (429 Too Many Requests)" none none),
                  n + 1, sleeps⟩
            | retriesLeft + 1 =>
                pyRequestLoop respond retriesLeft (backoff * 2) (n + 1)
                  (sleeps ++ [backoff])
          else if 400 ≤ r.status then
            ⟨.error (.tenableAPIError "Tenable API error" (some r.status)
                (some (pyPayload r))),
              n + 1, sleeps⟩
          else if r.status == 204 then
            ⟨.ok none, n + 1, sleeps⟩
          else
            match r.jsonVal with
            | some v => ⟨.ok (some v), n + 1, sleeps⟩
            | none =>
                ⟨.error (.tenableAPIError
                    "Invalid JSON response from Tenable API." none none),
                  n + 1, sleeps⟩

/-- HTTPClient._request of src/pytenable_was/http.py: retries = 5,
backoff = 2, first request index 0, no sleeps yet. -/
def pyRequest (respond : Nat → PyNetEvent) : PyTrace :=
  pyRequestLoop respond 5 2 0 []

/-- CacheEntry of src/cache.py lines 29-47: value, creation timestamp
(epoch seconds) and optional TTL in seconds. -/
structure CacheEntry where
  value : Val
  timestamp : Nat
  ttl : Option Nat
  deriving Repr

/-- CacheEntry.expired of src/cache.py lines 44-47: never expired when ttl
is None, else expired iff strictly more than ttl seconds have elapsed. -/
def CacheEntry.expired (e : CacheEntry) (now : Nat) : Bool :=
  match e.ttl with
  | none => false
  | some t => now - e.timestamp > t

/-- One cache namespace: a Python dict from key to CacheEntry, modelled as an
insertion-ordered association list. -/
abbrev Namespace : Type := List (String × CacheEntry)

/-- InMemoryCache of src/cache.py: the _store dict mapping namespace name to
namespace dict. The lock is irrelevant to the sequential semantics. -/
structure InMemoryCache where
  store : List (String × Namespace)
  deriving Repr

/-- InMemoryCache.__init__ of src/cache.py lines 69-77: the five
preinitialized empty namespaces, in order. -/
def initCache : InMemoryCache :=
  ⟨[("scans", []), ("apps", []), ("findings", []), ("urls", []), ("raw", [])]⟩

/-- Python d.get(k) on an association-list dict: the value of the binding
for k (a dict binds a key at most once). -/
def assocGet {α : Type} : List (String × α) → String → Option α
  | [], _ => none
  | p :: rest, k => if p.1 == k then some p.2 else assocGet rest k

/-- Python d[k] = v on an association-list dict: overwrite the value of the
existing binding in place (keeping insertion order, as dicts do), else
append a new binding at the end. -/
def assocSet {α : Type} : List (String × α) → String → α → List (String × α)
  | [], k, v => [(k, v)]
  | p :: rest, k, v =>
      if p.1 == k then (k, v) :: rest else p :: assocSet rest k v

/-- Python del d[k] on an association-list dict: drop the binding for k,
keeping every other binding. -/
def assocErase {α : Type} : List (String × α) → String → List (String × α)
  | [], _ => []
  | p :: rest, k =>
      if p.1 == k then assocErase rest k else p :: assocErase rest k

/-- The entry stored under a namespace and key, if any. -/
def findEntry (c : InMemoryCache) (ns k : String) : Option CacheEntry :=
  (assocGet c.store ns).bind (fun m => assocGet m k)

/-- InMemoryCache.get of src/cache.py lines 82-96 at time now: a missing
namespace or key raises CacheKeyError; an expired entry is deleted and
CacheKeyError with an expired marker is raised; otherwise the value is
returned. Returns the outcome together with the cache after the call. -/
def InMemoryCache.get (c : InMemoryCache) (ns k : String) (now : Nat) :
    Except CacheError Val × InMemoryCache :=
  match assocGet c.store ns with
  | none => (.error (.cacheKeyError (ns ++ ":" ++ k)), c)
  | some m =>
      match assocGet m k with
      | none => (.error (.cacheKeyError (ns ++ ":" ++ k)), c)
      | some e =>
          if e.expired now then
            (.error (.cacheKeyError (ns ++ ":" ++ k ++ " (expired)")),
              ⟨assocSet c.store ns (assocErase m k)⟩)
          else
            (.ok e.value, c)

/-- InMemoryCache.set of src/cache.py lines 101-107 at time now: create the
namespace when absent, then store a fresh entry under the key. -/
def InMemoryCache.set (c : InMemoryCache) (ns k : String) (v : Val)
    (ttl : Option Nat) (now : Nat) : InMemoryCache :=
  match assocGet c.store ns with
  | none => ⟨assocSet (assocSet c.store ns []) ns (assocSet [] k ⟨v, now, ttl⟩)⟩
  | some m => ⟨assocSet c.store ns (assocSet m k ⟨v, now, ttl⟩)⟩

/-- The item loop of InMemoryCache.warm, src/cache.py lines 140-142: each
iteration evaluates self._store[namespace][key] = CacheEntry(value, ttl),
which raises KeyError when the namespace dict is absent. warm never creates
the namespace. -/
def warmLoop (ns : String) (ttl : Option Nat) (now : Nat) :
    List (String × Val) → InMemoryCache → Except PyExn InMemoryCache
  | [], c => .ok c
  | (k, v) :: rest, c =>
      match assocGet c.store ns with
      | none => .error (.keyError ns)
      | some m =>
          warmLoop ns ttl now rest ⟨assocSet c.store ns (assocSet m k ⟨v, now, ttl⟩)⟩

/-- InMemoryCache.warm of src/cache.py lines 136-143 at time now. -/
def InMemoryCache.warm (c : InMemoryCache) (ns : String)
    (items : List (String × Val)) (ttl : Option Nat) (now : Nat) :
    Except PyExn InMemoryCache :=
  warmLoop ns ttl now items c

/-- Pagination metadata of a page response, as read by list_scans and
search_all: pagination.get of total, offset and limit. -/
structure SPagination where
  total : Option Nat
  offset : Option Nat
  limit : Option Nat
  deriving Repr

/-- One page response: its items list and optional pagination block. -/
structure SPage where
  items : List Val
  pagination : Option SPagination
  deriving Repr

/-- pagination.get of total with default 0, where a missing or falsy
pagination block counts as the empty dict (src/scans.py lines 109-110,
src/vulns.py lines 162-163). -/
def pageTotal (p : SPage) : Nat :=
  match p.pagination with
  | none => 0
  | some pg => pg.total.getD 0

/-- The while loop shared by ScansAPI.list_scans (src/scans.py lines
130-147) and VulnsAPI.search_all (src/vulns.py lines 184-202): while
offset < total, fetch a page; an empty items list breaks; otherwise items
are appended and the offset advances to server offset + server limit when
the server offset is present and the server limit truthy, else by the
number of items received. fuel bounds the iterations; none on exhaustion
(the source loop has no such bound and can diverge on adversarial
metadata). Returns the collected items and the number of page fetches made
including those counted in calls. -/
def collectLoop (fetch : Nat → Nat → SPage) (limit total : Nat) :
    Nat → Nat → List Val → Nat → Option (List Val × Nat)
  | fuel, offset, acc, calls =>
      if offset < total then
        let page := fetch limit offset
        if page.items.isEmpty then
          some (acc, calls + 1)
        else
          let nextOffset :=
            match page.pagination with
            | some pg =>
                match pg.offset, pg.limit with
                | some so, some sl =>
                    if sl ≠ 0 then so + sl else offset + page.items.length
                | _, _ => offset + page.items.length
            | none => offset + page.items.length
          match fuel with
          | 0 => none
          | fuel + 1 =>
              collectLoop fetch limit total fuel nextOffset (acc ++ page.items)
                (calls + 1)
      else
        some (acc, calls)

/-- The common body of ScansAPI.list_scans (src/scans.py lines 103-151) and
VulnsAPI.search_all (src/vulns.py lines 142-206): fetch the first page at
offset 0, read total, return at once when total <= first page length, else
enter the while loop at offset = length of the first items. The result pairs
the collected items with the number of page fetches. -/
def collectAll (fetch : Nat → Nat → SPage) (limit fuel : Nat) :
    Option (List Val × Nat) :=
  let first := fetch limit 0
  let total := pageTotal first
  if total ≤ first.items.length then
    some (first.items, 1)
  else
    collectLoop fetch limit total fuel first.items.length first.items 1

/-- ScansAPI.list_scans of src/scans.py: the paginated collector over
GET /was/v2/scans. -/
def listScans (fetch : Nat → Nat → SPage) (limit fuel : Nat) :
    Option (List Val × Nat) :=
  collectAll fetch limit fuel

/-- VulnsAPI.search_all of src/vulns.py: the paginated collector over
POST /was/v2/vulns/search; its loop is line for line that of list_scans. -/
def searchAll (fetch : Nat → Nat → SPage) (pageSize fuel : Nat) :
    Option (List Val × Nat) :=
  collectAll fetch pageSize fuel

/-- A paged source with consistent metadata over a fixed master list: page
(limit, offset) holds the master slice [offset, offset + limit) and echoes
total = master length plus the requested offset and limit. -/
def sliceFetch (master : List Val) (limit offset : Nat) : SPage :=
  ⟨(master.drop offset).take limit,
    some ⟨some master.length, some offset, some limit⟩⟩

/-- ScansAPI._api_patch_scan of src/scans.py lines 83-97, parameterized by
the outcome of evaluating self.http.patch on the scan path: any exception
from the call (for the shipped clients, the AttributeError from the missing
patch method) is caught and re-raised as TenableAPIError; a non-dict
response also raises TenableAPIError. -/
def apiPatchScan (patchCall : String → Except SdkError Val) (scanId : String) :
    Except SdkError Val :=
  match patchCall scanId with
  | .error _ => .error (.tenableAPIError ("Failed modifying scan " ++ scanId))
  | .ok resp =>
      match resp with
      | .vdict es => .ok (.vdict es)
      | _ => .error (.tenableAPIError ("Malformed PATCH response for scan " ++ scanId))

/-- Python attribute dispatch self.http.name(arg): when name is among the
methods the client defines the implementation runs, otherwise an
AttributeError is raised. -/
def httpAttrCall (verbs : List String) (impl : String → Except SdkError Val)
    (name : String) : String → Except SdkError Val :=
  fun arg =>
    if verbs.contains name then impl arg
    else .error (.pyExn (.attributeError name))

/-- Public methods of the src/http.py HTTPClient (lines 137-144). -/
def srcHttpVerbs : List String := ["get", "post", "delete"]

/-- Public methods of the src/pytenable_was/http.py HTTPClient
(lines 108-118). -/
def pyHttpVerbs : List String := ["get", "post", "put", "delete"]

/-- ScansAPI.change_owner of src/scans.py lines 167-178: a PATCH with the
owner_id body, returning whatever _api_patch_scan returns. -/
def changeOwner (patchCall : String → Except SdkError Val)
    (scanId newOwnerId : String) : Except SdkError Val :=
  apiPatchScan patchCall scanId

/-- The loop of ScansAPI.change_owner_bulk, src/scans.py lines 190-198:
change_owner is called for each scan id with no try/except, so the first
failure propagates out of the whole call; on success a status record is
appended. -/
def changeOwnerBulkLoop (patchCall : String → Except SdkError Val)
    (newOwnerId : String) : List String → List Val → Except SdkError (List Val)
  | [], acc => .ok acc
  | scanId :: rest, acc =>
      match changeOwner patchCall scanId newOwnerId with
      | .error e => .error e
      | .ok _ =>
          changeOwnerBulkLoop patchCall newOwnerId rest
            (acc ++ [Val.vdict [("scan_id", .vstr scanId),
              ("new_owner", .vstr newOwnerId), ("status", .vstr "ok")]])

/-- ScansAPI.change_owner_bulk of src/scans.py lines 180-200. -/
def changeOwnerBulk (patchCall : String → Except SdkError Val)
    (scanIds : List String) (newOwnerId : String) : Except SdkError (List Val) :=
  changeOwnerBulkLoop patchCall newOwnerId scanIds []

/-- The loop of PluginsAPI.get_multiple, src/plugins.py lines 74-82: each
plugin fetch is wrapped in try/except TenableAPIError; a caught failure
appends an error record with the plugin id and message, any other exception
escapes, a success appends the fetched dict. -/
def getMultipleLoop (fetch : String → Except SdkError Val) :
    List String → List Val → Except SdkError (List Val)
  | [], acc => .ok acc
  | pid :: rest, acc =>
      match fetch pid with
      | .ok v => getMultipleLoop fetch rest (acc ++ [v])
      | .error (.tenableAPIError m) =>
          getMultipleLoop fetch rest
            (acc ++ [Val.vdict [("plugin_id", .vstr pid), ("error", .vstr m)]])
      | .error (.pyExn e) => .error (.pyExn e)

/-- PluginsAPI.get_multiple of src/plugins.py lines 68-82. -/
def getMultiple (fetch : String → Except SdkError Val) (pluginIds : List String) :
    Except SdkError (List Val) :=
  getMultipleLoop fetch pluginIds []

/-- The entry get_multiple produces for one plugin id: the fetched value on
success, the recorded error dict on a caught TenableAPIError (any other
outcome never contributes an entry). -/
def recordFor (fetch : String → Except SdkError Val) (pid : String) : Val :=
  match fetch pid with
  | .ok v => v
  | .error (.tenableAPIError m) =>
      .vdict [("plugin_id", .vstr pid), ("error", .vstr m)]
  | .error (.pyExn _) => .vnull

/-- Whether a value is a Python dict. -/
def Val.isDict : Val → Bool
  | .vdict _ => true
  | _ => false

/-- Python flattened.update(other) restricted to one binding, and
flattened[k] = v: both are assocSet. updateAll folds assocSet over the
bindings of the dict returned by a recursive flatten_dict call, which is
what dict.update does. -/
def updateAll (d : List (String × Val)) (u : List (String × Val)) :
    List (String × Val) :=
  u.foldl (fun acc p => assocSet acc p.1 p.2) d

/-- The loop of flatten_dict, src/utils.py lines 177-184, processing the
remaining items of the input dict with parent_key parent and separator sep
into the accumulator flattened: a dict value is flattened recursively under
the dot-joined key and merged with dict.update, any other value is stored
under the joined key. -/
def flattenGo (sep : String) :
    String → List (String × Val) → List (String × Val) → List (String × Val)
  | _, [], acc => acc
  | parent, (k, v) :: rest, acc =>
      let newKey := if parent == "" then k else parent ++ sep ++ k
      match v with
      | .vdict d => flattenGo sep parent rest (updateAll acc (flattenGo sep newKey d []))
      | _ => flattenGo sep parent rest (assocSet acc newKey v)
termination_by _ l _ => sizeOf l
decreasing_by all_goals (simp_wf; try omega)

/-- flatten_dict of src/utils.py lines 171-184 with the default
parent_key of the empty string and separator dot, taking and returning the
binding list of a Python dict. -/
def flattenDict (data : List (String × Val)) : List (String × Val) :=
  flattenGo "." "" data []

/-- Result of the poll-until-terminal orchestrator: the resource became
terminal after a number of status checks having slept a total number of
seconds, or the errors.TimeoutError was raised after sleeping a total
number of seconds. -/
inductive PollResult where
  | done : Nat → Nat → PollResult
  | timedOut : Nat → PollResult
  deriving Repr, DecidableEq

/-- Modelled from the spec: the poll-until-terminal orchestrator of spec
section 4.4 (wait_until_complete), whose code is not under src/ — only the
TimeoutError and ScanWaitError declarations of src/errors.py are. Loop:
fetch the current status (check n yields status n, fetches take no time);
if terminal return; else check elapsed wall-clock time (the seconds slept
so far) against the timeout before each sleep and raise errors.TimeoutError
when it exceeds the timeout; else sleep for the fixed interval and repeat.
fuel bounds the iterations; none on exhaustion. -/
def pollLoop (status : Nat → String) (isTerminal : String → Bool)
    (interval timeout : Nat) : Nat → Nat → Nat → Option PollResult
  | fuel, n, elapsed =>
      if isTerminal (status n) then
        some (.done (n + 1) elapsed)
      else if elapsed > timeout then
        some (.timedOut elapsed)
      else
        match fuel with
        | 0 => none
        | fuel + 1 =>
            pollLoop status isTerminal interval timeout fuel (n + 1)
              (elapsed + interval)

/-- Modelled from the spec: entry point of the orchestrator — start at the
first status check with no time elapsed. -/
def pollUntilTerminal (status : Nat → String) (isTerminal : String → Bool)
    (interval timeout fuel : Nat) : Option PollResult :=
  pollLoop status isTerminal interval timeout fuel 0 0

/-- The spec's contract for error responses of the retrying transport,
stated in the spec's own words against the src/http.py client: on any
status at least 400 other than 429, exactly one request is issued and the
raised error carries the status code, the response body parsed as JSON when
possible (else the raw text), and the request URL. -/
def c4ClaimSrc : Prop :=
  ∀ (respond : Nat → NetEvent) (url : String) (r : HttpResponse),
    respond 0 = .resp r → 400 ≤ r.status → r.status ≠ 429 →
      (srcRequest respond url).requests = 1 ∧
      ∃ status body urlField payload,
        (srcRequest respond url).result = .err (.apiError status body urlField payload) ∧
        status = r.status ∧ urlField = some url ∧
        (match r.jsonVal with
         | some j => payload = some j
         | none => body = r.text)

/-- The master item list for the spec's 250-item, page-size-100 scenario. -/
def master250 : List Val := List.replicate 250 Val.vnull

/-- No value bound in the dict is itself a dict. -/
def noDictVals (l : List (String × Val)) : Prop := ∀ p ∈ l, p.2.isDict = false

/-- Each key is bound at most once (true of every Python dict). -/
def keysNodup {α : Type} (l : List (String × α)) : Prop :=
  (l.map Prod.fst).Nodup

/-- A paged source that stalls: the first page has two items and reports a
total of 10, but the page at offset 2 comes back empty. -/
def stallFetch : Nat → Nat → SPage :=
  fun limit offset =>
    if offset == 0 then
      ⟨[Val.vnum 1, Val.vnum 2], some ⟨some 10, some 0, some limit⟩⟩
    else
      ⟨[], some ⟨some 10, some offset, some limit⟩⟩

/-- A patch outcome failing (with the TenableAPIError a real client raises
for an HTTP error) for scan s2 only, succeeding for every other scan id. -/
def fivePatch : String → Except SdkError Val :=
  fun scanId =>
    if scanId == "s2" then .error (.tenableAPIError "boom")
    else .ok (.vdict [])

/-- A plugin fetch failing with TenableAPIError for plugin p2 only. -/
def fiveFetch : String → Except SdkError Val :=
  fun pid =>
    if pid == "p2" then .error (.tenableAPIError "plugin missing")
    else .ok (.vdict [("plugin_id", .vstr pid)])

/-- A server that answers HTTP 429 to every request, as seen by the
src/http.py client. -/
def all429Src : Nat → NetEvent := fun _ => .resp ⟨429, "", none⟩

/-- A server that answers HTTP 429 to every request, as seen by the
src/pytenable_was/http.py client. -/
def all429Py : Nat → PyNetEvent := fun _ => .resp ⟨429, "", none⟩

/-- A server that answers HTTP 500 to every request, as seen by the
src/pytenable_was/http.py client. -/
def all500Py : Nat → PyNetEvent := fun _ => .resp ⟨500, "", none⟩

/-! Association-list facts used by the cache and flattening theorems. -/

theorem assocGet_assocSet_self {α : Type} (d : List (String × α)) (k : String)
    (v : α) : assocGet (assocSet d k v) k = some v := by
  induction d with
  | nil => simp [assocSet, assocGet]
  | cons p rest ih =>
      by_cases hk : (p.1 == k) = true
      · simp [assocSet, assocGet, hk]
      · simp only [Bool.not_eq_true] at hk
        simp [assocSet, assocGet, hk, ih]

theorem assocGet_assocSet_ne {α : Type} (d : List (String × α)) (k k2 : String)
    (v : α) (hne : (k2 == k) = false) :
    assocGet (assocSet d k v) k2 = assocGet d k2 := by
  have hkk2 : (k == k2) = false := by
    have h1 : ¬ k2 = k := by simpa using hne
    simp only [beq_eq_false_iff_ne, ne_eq]
    intro hcon
    exact h1 hcon.symm
  induction d with
  | nil => simp [assocSet, assocGet, hkk2]
  | cons p rest ih =>
      by_cases hk : (p.1 == k) = true
      · have hp1 : p.1 = k := by simpa using hk
        simp [assocSet, assocGet, hk, hkk2, hp1]
      · simp only [Bool.not_eq_true] at hk
        by_cases hp2 : (p.1 == k2) = true
        · simp [assocSet, assocGet, hk, hp2]
        · simp only [Bool.not_eq_true] at hp2
          simp [assocSet, assocGet, hk, hp2, ih]

theorem assocGet_assocErase_self {α : Type} (d : List (String × α))
    (k : String) : assocGet (assocErase d k) k = none := by
  induction d with
  | nil => rfl
  | cons p rest ih =>
      by_cases hk : (p.1 == k) = true
      · simp [assocErase, hk, ih]
      · simp only [Bool.not_eq_true] at hk
        simp [assocErase, assocGet, hk, ih]

/-- C8: ScansAPI.change_owner always raises TenableAPIError over either
shipped HTTPClient, whatever their methods would return, because
self.http.patch is an AttributeError on both (src/http.py defines only
get/post/delete, src/pytenable_was/http.py only get/post/put/delete) and
_api_patch_scan catches every exception and re-raises TenableAPIError;
change_owner_bulk therefore raises on every non-empty ID list, failing at
its first scan id. -/
theorem C8_change_owner_always_fails
    (impl : String → Except SdkError Val) (scanId newOwnerId : String)
    (firstId : String) (restIds : List String) :
    changeOwner (httpAttrCall srcHttpVerbs impl "patch") scanId newOwnerId
      = .error (.tenableAPIError ("Failed modifying scan " ++ scanId)) ∧
    changeOwner (httpAttrCall pyHttpVerbs impl "patch") scanId newOwnerId
      = .error (.tenableAPIError ("Failed modifying scan " ++ scanId)) ∧
    changeOwnerBulk (httpAttrCall srcHttpVerbs impl "patch")
        (firstId :: restIds) newOwnerId
      = .error (.tenableAPIError ("Failed modifying scan " ++ firstId)) ∧
    changeOwnerBulk (httpAttrCall pyHttpVerbs impl "patch")
        (firstId :: restIds) newOwnerId
      = .error (.tenableAPIError ("Failed modifying scan " ++ firstId)) := by
  have hsrc : ¬ ("patch" ∈ srcHttpVerbs) := by decide
  have hpy : ¬ ("patch" ∈ pyHttpVerbs) := by decide
  refine ⟨?_, ?_, ?_, ?_⟩ <;>
    simp [changeOwner, changeOwnerBulk, changeOwnerBulkLoop, apiPatchScan,
      httpAttrCall, hsrc, hpy]

/-- C9: warming a namespace that is neither preinitialized nor created by a
prior set raises the raw Python KeyError for the namespace (not the
CacheKeyError the cache raises on a lookup miss) and stores nothing, while
set on the same namespace succeeds by creating it lazily. -/
theorem C9_warm_unknown_namespace (c : InMemoryCache) (ns : String)
    (items : List (String × Val)) (ttl : Option Nat) (now : Nat)
    (k : String) (v : Val) (ttl2 : Option Nat)
    (habsent : assocGet c.store ns = none) (hne : items ≠ []) :
    c.warm ns items ttl now = .error (.keyError ns) ∧
    (∀ s, PyExn.keyError ns ≠ PyExn.attributeError s) ∧
    findEntry (c.set ns k v ttl2 now) ns k = some ⟨v, now, ttl2⟩ := by
  refine ⟨?_, ?_, ?_⟩
  · cases items with
    | nil => exact absurd rfl hne
    | cons kv rest =>
        rw [InMemoryCache.warm, warmLoop, habsent]
  · intro s h
    cases h
  · simp [InMemoryCache.set, habsent, findEntry, assocGet_assocSet_self]

theorem noDictVals_nil : noDictVals [] := by
  intro p hp
  cases hp

theorem mem_assocSet {α : Type} (d : List (String × α)) (k : String) (v : α)
    (p : String × α) (hp : p ∈ assocSet d k v) : p ∈ d ∨ p = (k, v) := by
  induction d with
  | nil =>
      rw [assocSet] at hp
      right
      simpa using hp
  | cons q rest ih =>
      by_cases hq : (q.1 == k) = true
      · rw [assocSet, if_pos hq] at hp
        rcases List.mem_cons.mp hp with h | h
        · right
          exact h
        · left
          exact List.mem_cons_of_mem q h
      · rw [assocSet, if_neg hq] at hp
        rcases List.mem_cons.mp hp with h | h
        · left
          rw [h]
          exact List.mem_cons_self q rest
        · rcases ih h with h2 | h2
          · left
            exact List.mem_cons_of_mem q h2
          · right
            exact h2

theorem noDictVals_assocSet (d : List (String × Val)) (k : String) (v : Val)
    (hd : noDictVals d) (hv : v.isDict = false) :
    noDictVals (assocSet d k v) := by
  intro p hp
  rcases mem_assocSet d k v p hp with h | h
  · exact hd p h
  · rw [h]
    exact hv

theorem noDictVals_updateAll (u : List (String × Val)) :
    ∀ d : List (String × Val), noDictVals d → noDictVals u →
      noDictVals (updateAll d u) := by
  induction u with
  | nil =>
      intro d hd _
      exact hd
  | cons p rest ih =>
      intro d hd hu
      rw [updateAll, List.foldl_cons]
      exact ih (assocSet d p.1 p.2)
        (noDictVals_assocSet d p.1 p.2 hd (hu p (List.mem_cons_self p rest)))
        (fun q hq => hu q (List.mem_cons_of_mem p hq))

theorem assocSet_of_not_mem {α : Type} (d : List (String × α)) (k : String)
    (v : α) (h : k ∉ d.map Prod.fst) : assocSet d k v = d ++ [(k, v)] := by
  induction d with
  | nil => rfl
  | cons q rest ih =>
      have hq : (q.1 == k) = false := by
        simp only [List.map_cons, List.mem_cons] at h
        simp only [beq_eq_false_iff_ne, ne_eq]
        intro hcon
        exact h (Or.inl hcon.symm)
      have hrest : k ∉ List.map Prod.fst rest := by
        intro hmem
        apply h
        simp only [List.map_cons, List.mem_cons]
        exact Or.inr hmem
      rw [assocSet, if_neg (by simp [hq]), List.cons_append, ih hrest]

theorem keys_assocSet_mem {α : Type} (d : List (String × α)) (k : String)
    (v : α) (h : k ∈ d.map Prod.fst) :
    (assocSet d k v).map Prod.fst = d.map Prod.fst := by
  induction d with
  | nil => cases h
  | cons q rest ih =>
      by_cases hq : (q.1 == k) = true
      · rw [assocSet, if_pos hq, List.map_cons, List.map_cons]
        have : q.1 = k := by simpa using hq
        rw [this]
      · rw [List.map_cons] at h
        have hmem : k ∈ List.map Prod.fst rest := by
          rcases List.mem_cons.mp h with h3 | h3
          · exact absurd (by rw [h3]; simp : (q.1 == k) = true) hq
          · exact h3
        rw [assocSet, if_neg hq, List.map_cons, List.map_cons, ih hmem]

theorem keysNodup_assocSet {α : Type} (d : List (String × α)) (k : String)
    (v : α) (h : keysNodup d) : keysNodup (assocSet d k v) := by
  by_cases hm : k ∈ d.map Prod.fst
  · rw [keysNodup, keys_assocSet_mem d k v hm]
    exact h
  · rw [keysNodup, assocSet_of_not_mem d k v hm, List.map_append]
    simp only [List.map_cons, List.map_nil]
    rw [List.nodup_append]
    refine ⟨h, List.nodup_singleton k, ?_⟩
    intro a ha hcon
    rw [List.mem_singleton] at hcon
    rw [hcon] at ha
    exact hm ha

theorem keysNodup_updateAll (u : List (String × Val)) :
    ∀ d : List (String × Val), keysNodup d → keysNodup (updateAll d u) := by
  induction u with
  | nil =>
      intro d hd
      exact hd
  | cons p rest ih =>
      intro d hd
      rw [updateAll, List.foldl_cons]
      exact ih (assocSet d p.1 p.2) (keysNodup_assocSet d p.1 p.2 hd)

theorem flattenGo_noDictVals (sep parent : String)
    (l acc : List (String × Val)) :
    noDictVals acc → noDictVals (flattenGo sep parent l acc) := by
  induction parent, l, acc using flattenGo.induct sep with
  | case1 parent acc =>
      intro hacc
      simpa only [flattenGo] using hacc
  | case2 parent k rest acc newKey es ih3 ih2 ih1 =>
      intro hacc
      simp only [flattenGo]
      exact ih1 (noDictVals_updateAll _ acc hacc (ih3 noDictVals_nil))
  | case3 parent k v rest acc newKey hne ih1 =>
      intro hacc
      cases v with
      | vdict es => exact absurd rfl (hne es)
      | vnull =>
          simp only [flattenGo]
          exact ih1 (noDictVals_assocSet _ _ _ hacc (by rfl))
      | vbool b =>
          simp only [flattenGo]
          exact ih1 (noDictVals_assocSet _ _ _ hacc (by rfl))
      | vnum n =>
          simp only [flattenGo]
          exact ih1 (noDictVals_assocSet _ _ _ hacc (by rfl))
      | vstr s =>
          simp only [flattenGo]
          exact ih1 (noDictVals_assocSet _ _ _ hacc (by rfl))
      | vlist xs =>
          simp only [flattenGo]
          exact ih1 (noDictVals_assocSet _ _ _ hacc (by rfl))

theorem flattenGo_keysNodup (sep parent : String)
    (l acc : List (String × Val)) :
    keysNodup acc → keysNodup (flattenGo sep parent l acc) := by
  induction parent, l, acc using flattenGo.induct sep with
  | case1 parent acc =>
      intro hacc
      simpa only [flattenGo] using hacc
  | case2 parent k rest acc newKey es ih3 ih2 ih1 =>
      intro hacc
      simp only [flattenGo]
      exact ih1 (keysNodup_updateAll _ acc hacc)
  | case3 parent k v rest acc newKey hne ih1 =>
      intro hacc
      cases v with
      | vdict es => exact absurd rfl (hne es)
      | vnull =>
          simp only [flattenGo]
          exact ih1 (keysNodup_assocSet _ _ _ hacc)
      | vbool b =>
          simp only [flattenGo]
          exact ih1 (keysNodup_assocSet _ _ _ hacc)
      | vnum n =>
          simp only [flattenGo]
          exact ih1 (keysNodup_assocSet _ _ _ hacc)
      | vstr s =>
          simp only [flattenGo]
          exact ih1 (keysNodup_assocSet _ _ _ hacc)
      | vlist xs =>
          simp only [flattenGo]
          exact ih1 (keysNodup_assocSet _ _ _ hacc)

theorem flattenGo_flat (sep : String) (l : List (String × Val)) :
    ∀ acc : List (String × Val), noDictVals l → keysNodup l →
      (∀ k2 ∈ acc.map Prod.fst, k2 ∉ l.map Prod.fst) →
      flattenGo sep "" l acc = acc ++ l := by
  induction l with
  | nil =>
      intro acc _ _ _
      simp only [flattenGo, List.append_nil]
  | cons p rest ih =>
      intro acc hnd hkn hdisj
      obtain ⟨k, v⟩ := p
      have hv : v.isDict = false := hnd (k, v) (List.mem_cons_self _ _)
      have hknotacc : k ∉ acc.map Prod.fst := by
        intro hmem
        exact hdisj k hmem (by simp)
      have hset : assocSet acc k v = acc ++ [(k, v)] :=
        assocSet_of_not_mem acc k v hknotacc
      have hknotrest : k ∉ rest.map Prod.fst := by
        have := hkn
        rw [keysNodup, List.map_cons, List.nodup_cons] at this
        exact this.1
      have hrest_nd : noDictVals rest :=
        fun q hq => hnd q (List.mem_cons_of_mem _ hq)
      have hrest_kn : keysNodup rest := by
        have := hkn
        rw [keysNodup, List.map_cons, List.nodup_cons] at this
        exact this.2
      have hdisj2 : ∀ k2 ∈ (acc ++ [(k, v)]).map Prod.fst,
          k2 ∉ rest.map Prod.fst := by
        intro k2 hk2
        rw [List.map_append] at hk2
        rcases List.mem_append.mp hk2 with h2 | h2
        · intro hcon
          apply hdisj k2 h2
          simp only [List.map_cons, List.mem_cons]
          exact Or.inr hcon
        · simp only [List.map_cons, List.map_nil, List.mem_singleton] at h2
          rw [h2]
          exact hknotrest
      have hkey : (if ("" : String) == "" then k else "" ++ sep ++ k) = k := by
        simp
      cases v with
      | vdict es => simp [Val.isDict] at hv
      | vnull =>
          simp only [flattenGo, hkey, hset]
          rw [ih (acc ++ [(k, Val.vnull)]) hrest_nd hrest_kn hdisj2]
          simp
      | vbool b =>
          simp only [flattenGo, hkey, hset]
          rw [ih (acc ++ [(k, Val.vbool b)]) hrest_nd hrest_kn hdisj2]
          simp
      | vnum n =>
          simp only [flattenGo, hkey, hset]
          rw [ih (acc ++ [(k, Val.vnum n)]) hrest_nd hrest_kn hdisj2]
          simp
      | vstr s =>
          simp only [flattenGo, hkey, hset]
          rw [ih (acc ++ [(k, Val.vstr s)]) hrest_nd hrest_kn hdisj2]
          simp
      | vlist xs =>
          simp only [flattenGo, hkey, hset]
          rw [ih (acc ++ [(k, Val.vlist xs)]) hrest_nd hrest_kn hdisj2]
          simp

/-- C10: flatten_dict returns a mapping with no dict values (nested dicts
are merged under dot-joined keys); a list value passes through untouched
even when dicts sit inside it; and flatten_dict is idempotent — flattening
an already-flat dict reproduces it exactly. -/
theorem C10_flatten_no_dicts_idempotent (d : List (String × Val)) :
    (∀ p ∈ flattenDict d, p.2.isDict = false) ∧
    (∀ (k : String) (xs : List Val),
        flattenDict [(k, Val.vlist xs)] = [(k, Val.vlist xs)]) ∧
    flattenDict (flattenDict d) = flattenDict d := by
  have h1 : noDictVals (flattenDict d) :=
    flattenGo_noDictVals "." "" d [] noDictVals_nil
  have h2 : keysNodup (flattenDict d) :=
    flattenGo_keysNodup "." "" d [] (by rw [keysNodup]; exact List.nodup_nil)
  refine ⟨h1, ?_, ?_⟩
  · intro k xs
    simp [flattenDict, flattenGo, assocSet]
  · rw [flattenDict]
    rw [flattenGo_flat "." (flattenDict d) [] h1 h2 (by intro k2 hk2; cases hk2)]
    rw [List.nil_append]

/-- Witness for C10 at a concrete nested dict. -/
theorem C10_flatten_no_dicts_idempotent_witness :
    flattenDict (flattenDict
        [("a", Val.vdict [("b", Val.vnum 1)]), ("e", Val.vnum 3)])
      = flattenDict [("a", Val.vdict [("b", Val.vnum 1)]), ("e", Val.vnum 3)] :=
  (C10_flatten_no_dicts_idempotent
    [("a", Val.vdict [("b", Val.vnum 1)]), ("e", Val.vnum 3)]).2.2

theorem pollLoop_timeout (status : Nat → String) (isTerm : String → Bool)
    (interval timeout : Nat)
    (hnt : ∀ n, isTerm (status n) = false) (hi : 0 < interval) :
    ∀ fuel n elapsed, elapsed ≤ timeout + interval →
      timeout + interval ≤ elapsed + fuel * interval →
      ∃ slept, pollLoop status isTerm interval timeout fuel n elapsed
          = some (.timedOut slept) ∧ timeout < slept ∧
          slept ≤ timeout + interval := by
  intro fuel
  induction fuel with
  | zero =>
      intro n elapsed hle hge
      have hgt : timeout < elapsed := by omega
      refine ⟨elapsed, ?_, hgt, hle⟩
      rw [pollLoop]
      simp [hnt n, hgt]
  | succ fuel ih =>
      intro n elapsed hle hge
      by_cases hgt : elapsed > timeout
      · refine ⟨elapsed, ?_, hgt, hle⟩
        rw [pollLoop]
        simp [hnt n, hgt]
      · have h1 : elapsed + interval ≤ timeout + interval := by omega
        have h2 : timeout + interval ≤ (elapsed + interval) + fuel * interval := by
          rw [Nat.succ_mul] at hge
          omega
        obtain ⟨slept, hS, hS1, hS2⟩ := ih (n + 1) (elapsed + interval) h1 h2
        refine ⟨slept, ?_, hS1, hS2⟩
        rw [pollLoop]
        simp only [hnt n, Bool.false_eq_true, if_false, hgt]
        exact hS

/-- C2: against a status source that never reaches a terminal state, the
poll-until-terminal orchestrator (modelled from spec section 4.4, its code
being absent from src/) raises errors.TimeoutError once the elapsed
wall-clock time strictly exceeds the configured timeout; the elapsed time
is checked before each sleep, so the total time slept exceeds the timeout
but never by more than one polling interval. -/
theorem C2_poll_timeout (status : Nat → String) (isTerm : String → Bool)
    (interval timeout fuel : Nat)
    (hnt : ∀ n, isTerm (status n) = false) (hi : 0 < interval)
    (hfuel : timeout + interval ≤ fuel * interval) :
    ∃ slept, pollUntilTerminal status isTerm interval timeout fuel
        = some (.timedOut slept) ∧ timeout < slept ∧
        slept ≤ timeout + interval := by
  have h := pollLoop_timeout status isTerm interval timeout hnt hi fuel 0 0
    (by omega) (by omega)
  simpa [pollUntilTerminal] using h

/-- Witness for C2: polling an always-running resource every 10 seconds
with a 25 second timeout times out having slept more than 25 and at most
35 seconds. -/
theorem C2_poll_timeout_witness :
    ∃ slept, pollUntilTerminal (fun _ => "running") (fun s => s == "completed")
        10 25 10 = some (.timedOut slept) ∧ 25 < slept ∧ slept ≤ 35 :=
  C2_poll_timeout (fun _ => "running") (fun s => s == "completed") 10 25 10
    (fun _ => by rfl) (by norm_num) (by norm_num)

theorem collectLoop_slice (master : List Val) (limit : Nat) (hl : 0 < limit) :
    ∀ (fuel offset calls : Nat),
      master.length - offset ≤ fuel * limit →
      ∃ c, collectLoop (sliceFetch master) limit master.length fuel offset
          (master.take offset) calls = some (master, c) := by
  intro fuel
  induction fuel with
  | zero =>
      intro offset calls h
      have hoff : master.length ≤ offset := by omega
      refine ⟨calls, ?_⟩
      rw [collectLoop, if_neg (by omega), List.take_of_length_le hoff]
  | succ fuel ih =>
      intro offset calls h
      by_cases hlt : offset < master.length
      · have hlen : ((sliceFetch master limit offset).items).length
            = min limit (master.length - offset) := by
          simp [sliceFetch]
        have hempty : ((sliceFetch master limit offset).items).isEmpty = false := by
          have : ((sliceFetch master limit offset).items) ≠ [] := by
            intro hcon
            rw [hcon] at hlen
            simp at hlen
            omega
          simpa [List.isEmpty_iff] using this
        have hacc : master.take offset ++ (sliceFetch master limit offset).items
            = master.take (offset + limit) := by
          rw [List.take_add master offset limit]
          rfl
        have harith : master.length - (offset + limit) ≤ fuel * limit := by
          rw [Nat.succ_mul] at h
          omega
        obtain ⟨c, hc⟩ := ih (offset + limit) (calls + 1) harith
        refine ⟨c, ?_⟩
        rw [collectLoop, if_pos hlt]
        simp only [hempty, Bool.false_eq_true, if_false, sliceFetch]
        rw [if_pos (by omega : limit ≠ 0)]
        rw [show (List.take limit (List.drop offset master))
            = (sliceFetch master limit offset).items from rfl, hacc]
        rw [if_neg (by simp [hempty])]
        exact hc
      · refine ⟨calls, ?_⟩
        rw [collectLoop, if_neg hlt, List.take_of_length_le (by omega)]

set_option maxRecDepth 10000 in
/-- C6: over a paged source with consistent pagination metadata (the slices
of a master list, echoing total, offset and limit), list_scans and
search_all return exactly the master list — the full concatenation in
server order, with no client-side re-sorting; in particular with 250 items
and page size 100 they return all 250 items in exactly 3 page fetches, the
third page carrying only 50 items (fewer than the limit) and the collector
still terminating. -/
theorem C6_pagination_complete (master : List Val) (limit fuel : Nat)
    (hl : 0 < limit) (hfuel : master.length ≤ fuel * limit) :
    (∃ calls, listScans (sliceFetch master) limit fuel = some (master, calls) ∧
        searchAll (sliceFetch master) limit fuel = some (master, calls)) ∧
    listScans (sliceFetch master250) 100 10 = some (master250, 3) ∧
    searchAll (sliceFetch master250) 100 10 = some (master250, 3) := by
  refine ⟨?_, by rfl, by rfl⟩
  have hcore : ∃ calls, collectAll (sliceFetch master) limit fuel
      = some (master, calls) := by
    rw [collectAll]
    have hfirst : (sliceFetch master limit 0).items = master.take limit := by
      simp [sliceFetch]
    have htotal : pageTotal (sliceFetch master limit 0) = master.length := by
      simp [pageTotal, sliceFetch]
    by_cases hsmall : master.length ≤ (sliceFetch master limit 0).items.length
    · rw [if_pos (by rw [htotal]; exact hsmall)]
      have : master.length ≤ limit := by
        rw [hfirst] at hsmall
        simp at hsmall
        omega
      refine ⟨1, ?_⟩
      rw [hfirst, List.take_of_length_le this]
    · rw [if_neg (by rw [htotal]; exact hsmall)]
      have hbig : limit < master.length := by
        rw [hfirst] at hsmall
        simp at hsmall
        omega
      have hofflen : (sliceFetch master limit 0).items.length = limit := by
        rw [hfirst]
        simp
        omega
      have harith : master.length - limit ≤ fuel * limit := by omega
      obtain ⟨c, hc⟩ := collectLoop_slice master limit hl fuel limit 1 harith
      refine ⟨c, ?_⟩
      rw [htotal, hofflen]
      rw [show (sliceFetch master limit 0).items = master.take limit from hfirst]
      exact hc
  obtain ⟨calls, hc⟩ := hcore
  exact ⟨calls, hc, hc⟩

set_option maxRecDepth 10000 in
/-- Witness for C6 at the 250-item master list with page size 100. -/
theorem C6_pagination_complete_witness :
    (∃ calls, listScans (sliceFetch master250) 100 10
        = some (master250, calls) ∧
      searchAll (sliceFetch master250) 100 10 = some (master250, calls)) ∧
    listScans (sliceFetch master250) 100 10 = some (master250, 3) ∧
    searchAll (sliceFetch master250) 100 10 = some (master250, 3) :=
  C6_pagination_complete master250 100 10 (by norm_num)
    (by rw [master250]; simp)

/-- C7: whenever a fetched page returns zero items while the current offset
is still below the reported total, the collector loop stops at once with
the items gathered so far after that one extra page fetch; consequently
list_scans and search_all over a source whose second page is empty return
exactly the first page's items in 2 page fetches. -/
theorem C7_pagination_stall_safety :
    (∀ (fetch : Nat → Nat → SPage) (limit total fuel offset calls : Nat)
        (acc : List Val),
      offset < total → (fetch limit offset).items = [] →
      collectLoop fetch limit total fuel offset acc calls
        = some (acc, calls + 1)) ∧
    (∀ (fetch : Nat → Nat → SPage) (limit fuel : Nat),
      (fetch limit 0).items ≠ [] →
      (fetch limit 0).items.length < pageTotal (fetch limit 0) →
      (fetch limit ((fetch limit 0).items.length)).items = [] →
      listScans fetch limit fuel = some ((fetch limit 0).items, 2) ∧
      searchAll fetch limit fuel = some ((fetch limit 0).items, 2)) := by
  have hloop : ∀ (fetch : Nat → Nat → SPage) (limit total fuel offset calls : Nat)
      (acc : List Val),
      offset < total → (fetch limit offset).items = [] →
      collectLoop fetch limit total fuel offset acc calls
        = some (acc, calls + 1) := by
    intro fetch limit total fuel offset calls acc hlt hempty
    rw [collectLoop, if_pos hlt]
    simp [hempty]
  refine ⟨hloop, ?_⟩
  intro fetch limit fuel hne hlt hempty
  have hone : collectAll fetch limit fuel = some ((fetch limit 0).items, 2) := by
    rw [collectAll, if_neg (by omega)]
    exact hloop fetch limit (pageTotal (fetch limit 0)) fuel
      ((fetch limit 0).items.length) 1 (fetch limit 0).items hlt hempty
  exact ⟨hone, hone⟩

/-- Witness for C7 at the concrete stalling source. -/
theorem C7_pagination_stall_safety_witness :
    listScans stallFetch 2 10 = some ((stallFetch 2 0).items, 2) ∧
    searchAll stallFetch 2 10 = some ((stallFetch 2 0).items, 2) :=
  C7_pagination_stall_safety.2 stallFetch 2 10 (by simp [stallFetch])
    (by simp [stallFetch, pageTotal]) (by rfl)

theorem getMultipleLoop_ok (fetch : String → Except SdkError Val) :
    ∀ (ids : List String) (acc : List Val),
      (∀ i ∈ ids, ∀ e, fetch i ≠ .error (.pyExn e)) →
      getMultipleLoop fetch ids acc = .ok (acc ++ ids.map (recordFor fetch)) := by
  intro ids
  induction ids with
  | nil =>
      intro acc _
      simp [getMultipleLoop]
  | cons i rest ih =>
      intro acc h
      have hrest : ∀ j ∈ rest, ∀ e, fetch j ≠ .error (.pyExn e) :=
        fun j hj => h j (List.mem_cons_of_mem i hj)
      cases hf : fetch i with
      | ok v =>
          simp only [getMultipleLoop, hf]
          rw [ih (acc ++ [v]) hrest]
          simp [recordFor, hf]
      | error err =>
          cases err with
          | tenableAPIError m =>
              simp only [getMultipleLoop, hf]
              rw [ih _ hrest]
              simp [recordFor, hf]
          | pyExn e =>
              exact absurd hf (h i (List.mem_cons_self i rest) e)

/-- C3 counterexample: ScansAPI.change_owner_bulk over five scan ids of
which only s2 fails aborts the whole batch with the propagated
TenableAPIError — it returns no result set at all, so the claimed
four-successes-plus-one-recorded-failure result does not hold for every
bulk operation. -/
theorem C3_counterexample :
    changeOwnerBulk fivePatch ["s1", "s2", "s3", "s4", "s5"] "o7"
        = .error (.tenableAPIError "Failed modifying scan s2") ∧
    (changeOwnerBulk fivePatch ["s1", "s2", "s3", "s4", "s5"] "o7").isOk
        = false := by
  exact ⟨rfl, rfl⟩

/-- C3 amended: PluginsAPI.get_multiple does satisfy the claim — when every
per-id failure is a TenableAPIError (as raised by the matching client), it
returns one entry per id, a fetched dict for each success and a recorded
plugin_id/error dict for each failure, and never raises; in particular with
one failing id out of five it returns four successes and one recorded
failure. ScansAPI.change_owner_bulk does not (see the counterexample). -/
theorem C3_bulk_partial_failure (fetch : String → Except SdkError Val)
    (ids : List String)
    (h : ∀ i ∈ ids, ∀ e, fetch i ≠ .error (.pyExn e)) :
    getMultiple fetch ids = .ok (ids.map (recordFor fetch)) ∧
    getMultiple fiveFetch ["p1", "p2", "p3", "p4", "p5"] = .ok
      [Val.vdict [("plugin_id", .vstr "p1")],
       Val.vdict [("plugin_id", .vstr "p2"), ("error", .vstr "plugin missing")],
       Val.vdict [("plugin_id", .vstr "p3")],
       Val.vdict [("plugin_id", .vstr "p4")],
       Val.vdict [("plugin_id", .vstr "p5")]] := by
  refine ⟨?_, rfl⟩
  have := getMultipleLoop_ok fetch ids [] h
  simpa [getMultiple] using this

/-- Witness for C3 amended at the one-of-five failing fetch. -/
theorem C3_bulk_partial_failure_witness :
    getMultiple fiveFetch ["p1", "p2", "p3", "p4", "p5"]
        = .ok (["p1", "p2", "p3", "p4", "p5"].map (recordFor fiveFetch)) :=
  (C3_bulk_partial_failure fiveFetch ["p1", "p2", "p3", "p4", "p5"]
    (by
      intro i hi e hcon
      revert hcon
      by_cases hc : (i == "p2") = true <;> simp [fiveFetch, hc])).1

/-- C1 counterexample: under a server that always answers 429, the
src/pytenable_was/http.py transport issues 6 HTTP requests, not the fixed
maximum attempt count of 5, and the error it raises is the same
TenableAPIError kind raised for every other failure (for example a 500
response), not a distinct throttle kind. -/
theorem C1_counterexample :
    (pyRequest all429Py).requests = 6 ∧
    ((pyRequest all429Py).requests == 5) = false ∧
    (∃ m s p, (pyRequest all429Py).result = .error (.tenableAPIError m s p)) ∧
    (∃ m s p, (pyRequest all500Py).result = .error (.tenableAPIError m s p)) := by
  refine ⟨rfl, rfl, ⟨_, _, _, rfl⟩, ⟨_, _, _, rfl⟩⟩

/-- C1 amended: under a server that always answers 429, the src/http.py
transport issues exactly 5 requests, waits 2 ^ attempt seconds before each
retry (attempt starting at 0, base 1) and raises ThrottleError, a kind
distinct from the api, connection and timeout error kinds; the
src/pytenable_was/http.py transport instead issues 6 requests, waits
2 * 2 ^ attempt seconds (base 2) and raises its all-purpose
TenableAPIError. -/
theorem C1_retry_exhaustion
    (respond : Nat → NetEvent) (prespond : Nat → PyNetEvent) (url : String)
    (hsrc : ∀ n, ∃ r, respond n = .resp r ∧ r.status = 429)
    (hpy : ∀ n, ∃ r, prespond n = .resp r ∧ r.status = 429) :
    srcRequest respond url =
      ⟨.err (.throttleError
          ("Exceeded retry attempts after repeated 429 responses for " ++ url)),
        5, [2 ^ 0, 2 ^ 1, 2 ^ 2, 2 ^ 3, 2 ^ 4]⟩ ∧
    (∀ s status msg u2 p,
        WasError.throttleError s ≠ WasError.apiError status msg u2 p) ∧
    (∀ s m, WasError.throttleError s ≠ WasError.connectionError m) ∧
    (∀ s m, WasError.throttleError s ≠ WasError.timeoutError m) ∧
    pyRequest prespond =
      ⟨.error (.tenableAPIError "Too many retries (429 Too Many Requests)"
          none none),
        6, [2 * 2 ^ 0, 2 * 2 ^ 1, 2 * 2 ^ 2, 2 * 2 ^ 3, 2 * 2 ^ 4]⟩ := by
  obtain ⟨r0, e0, s0⟩ := hsrc 0
  obtain ⟨r1, e1, s1⟩ := hsrc 1
  obtain ⟨r2, e2, s2⟩ := hsrc 2
  obtain ⟨r3, e3, s3⟩ := hsrc 3
  obtain ⟨r4, e4, s4⟩ := hsrc 4
  obtain ⟨q0, f0, t0⟩ := hpy 0
  obtain ⟨q1, f1, t1⟩ := hpy 1
  obtain ⟨q2, f2, t2⟩ := hpy 2
  obtain ⟨q3, f3, t3⟩ := hpy 3
  obtain ⟨q4, f4, t4⟩ := hpy 4
  obtain ⟨q5, f5, t5⟩ := hpy 5
  refine ⟨?_, ?_, ?_, ?_, ?_⟩
  · simp [srcRequest, srcRequestLoop, e0, e1, e2, e3, e4, s0, s1, s2, s3, s4]
  · intro s status msg u2 p h
    cases h
  · intro s m h
    cases h
  · intro s m h
    cases h
  · simp [pyRequest, pyRequestLoop, f0, f1, f2, f3, f4, f5,
      t0, t1, t2, t3, t4, t5]

/-- Witness for C1 amended at the concrete always-429 servers. -/
theorem C1_retry_exhaustion_witness :
    srcRequest all429Src "u" =
      ⟨.err (.throttleError
          ("Exceeded retry attempts after repeated 429 responses for u")),
        5, [2 ^ 0, 2 ^ 1, 2 ^ 2, 2 ^ 3, 2 ^ 4]⟩ ∧
    (∀ s status msg u2 p,
        WasError.throttleError s ≠ WasError.apiError status msg u2 p) ∧
    (∀ s m, WasError.throttleError s ≠ WasError.connectionError m) ∧
    (∀ s m, WasError.throttleError s ≠ WasError.timeoutError m) ∧
    pyRequest all429Py =
      ⟨.error (.tenableAPIError "Too many retries (429 Too Many Requests)"
          none none),
        6, [2 * 2 ^ 0, 2 * 2 ^ 1, 2 * 2 ^ 2, 2 * 2 ^ 3, 2 * 2 ^ 4]⟩ :=
  C1_retry_exhaustion all429Src all429Py "u"
    (fun _ => ⟨⟨429, "", none⟩, rfl, rfl⟩)
    (fun _ => ⟨⟨429, "", none⟩, rfl, rfl⟩)

/-- C4 counterexample: the spec-shaped contract c4ClaimSrc is false for the
src/http.py transport — on a 500 response whose body parses as JSON, the
raised APIError carries the raw text in its message and None as payload;
the body is never parsed as JSON. -/
theorem C4_counterexample : ¬ c4ClaimSrc := by
  intro h
  obtain ⟨hreq, status, body, urlField, payload, hres, hst, hurl, hjson⟩ :=
    h (fun _ => .resp ⟨500, "[]", some (.vlist [])⟩) "u"
      ⟨500, "[]", some (.vlist [])⟩ rfl (by norm_num) (by norm_num)
  have hact : (srcRequest (fun _ => .resp ⟨500, "[]", some (.vlist [])⟩)
      "u").result = .err (.apiError 500 "[]" (some "u") none) := rfl
  rw [hact] at hres
  cases hres
  simp at hjson

/-- C4 amended: on a first response with status at least 400 and not 429,
each transport issues exactly one request, sleeps never, and fails at once:
the src/http.py APIError carries the status code, the raw response text and
the request URL but a payload of None (the body is never parsed as JSON);
the src/pytenable_was/http.py TenableAPIError carries the status code and
the body parsed as JSON when possible else the raw text, but no URL. -/
theorem C4_non_retry_immediate_error
    (respond : Nat → NetEvent) (prespond : Nat → PyNetEvent) (url : String)
    (r rp : HttpResponse)
    (h0 : respond 0 = .resp r) (hge : 400 ≤ r.status) (hne : r.status ≠ 429)
    (p0 : prespond 0 = .resp rp) (pge : 400 ≤ rp.status)
    (pne : rp.status ≠ 429) :
    srcRequest respond url =
      ⟨.err (.apiError r.status r.text (some url) none), 1, []⟩ ∧
    pyRequest prespond =
      ⟨.error (.tenableAPIError "Tenable API error" (some rp.status)
          (some (pyPayload rp))), 1, []⟩ := by
  have hbe : (r.status == 429) = false := by simp [hne]
  have pbe : (rp.status == 429) = false := by simp [pne]
  constructor
  · simp [srcRequest, srcRequestLoop, h0, hbe, hge]
  · simp [pyRequest, pyRequestLoop, p0, pbe, pge]

/-- Witness for C4 amended at a concrete 500 response with a JSON body. -/
theorem C4_non_retry_immediate_error_witness :
    srcRequest (fun _ => .resp ⟨500, "[]", some (.vlist [])⟩) "u" =
      ⟨.err (.apiError 500 "[]" (some "u") none), 1, []⟩ ∧
    pyRequest (fun _ => .resp ⟨500, "[]", some (.vlist [])⟩) =
      ⟨.error (.tenableAPIError "Tenable API error" (some 500)
          (some (pyPayload ⟨500, "[]", some (.vlist [])⟩))), 1, []⟩ :=
  C4_non_retry_immediate_error
    (fun _ => .resp ⟨500, "[]", some (.vlist [])⟩)
    (fun _ => .resp ⟨500, "[]", some (.vlist [])⟩) "u"
    ⟨500, "[]", some (.vlist [])⟩ ⟨500, "[]", some (.vlist [])⟩
    rfl (by norm_num) (by norm_num) rfl (by norm_num) (by norm_num)

/-- C5: InMemoryCache.get returns the stored value exactly when an entry is
present and not expired; on an absent or expired entry it raises
CacheKeyError, and a present-but-expired entry is deleted by that failed
lookup; an entry is expired iff strictly more than ttl seconds elapsed
(still a hit at exactly ttl elapsed seconds) and a ttl of None never
expires. -/
theorem C5_cache_get_semantics (c : InMemoryCache) (ns k : String) (now : Nat) :
    (∀ v, (c.get ns k now).1 = .ok v ↔
        ∃ e, findEntry c ns k = some e ∧ e.expired now = false ∧ e.value = v) ∧
    (findEntry c ns k = none →
        (c.get ns k now).1 = .error (.cacheKeyError (ns ++ ":" ++ k)) ∧
        (c.get ns k now).2 = c) ∧
    (∀ e, findEntry c ns k = some e → e.expired now = true →
        (c.get ns k now).1
            = .error (.cacheKeyError (ns ++ ":" ++ k ++ " (expired)")) ∧
        findEntry (c.get ns k now).2 ns k = none) ∧
    (∀ e : CacheEntry, e.ttl = none → e.expired now = false) ∧
    (∀ (e : CacheEntry) (ttlT : Nat), e.ttl = some ttlT →
        e.expired (e.timestamp + ttlT) = false ∧
        (e.expired now = true ↔ now - e.timestamp > ttlT)) := by
  refine ⟨?_, ?_, ?_, ?_, ?_⟩
  · intro v
    cases hns : assocGet c.store ns with
    | none =>
        simp only [InMemoryCache.get, hns, findEntry, Option.bind]
        constructor
        · intro h
          cases h
        · rintro ⟨e, he, -, -⟩
          cases he
    | some m =>
        cases hk : assocGet m k with
        | none =>
            simp only [InMemoryCache.get, hns, hk, findEntry, Option.bind]
            constructor
            · intro h
              cases h
            · rintro ⟨e, he, -, -⟩
              cases he
        | some e =>
            have hfe : findEntry c ns k = some e := by
              simp [findEntry, hns, hk]
            by_cases hex : e.expired now = true
            · simp only [InMemoryCache.get, hns, hk, hex, if_true, hfe]
              constructor
              · intro h
                cases h
              · rintro ⟨e2, he2, hne2, -⟩
                cases he2
                rw [hex] at hne2
                cases hne2
            · have hex2 : e.expired now = false := by simpa using hex
              simp only [InMemoryCache.get, hns, hk, hex2, Bool.false_eq_true,
                if_false, hfe]
              constructor
              · intro h
                cases h
                exact ⟨e, rfl, hex2, rfl⟩
              · rintro ⟨e2, he2, -, hv⟩
                cases he2
                rw [hv]
  · intro habs
    cases hns : assocGet c.store ns with
    | none => simp [InMemoryCache.get, hns]
    | some m =>
        cases hk : assocGet m k with
        | none => simp [InMemoryCache.get, hns, hk]
        | some e =>
            rw [findEntry, hns] at habs
            simp only [Option.bind, hk] at habs
            cases habs
  · intro e hfe hex
    rw [findEntry] at hfe
    cases hns : assocGet c.store ns with
    | none =>
        rw [hns] at hfe
        cases hfe
    | some m =>
        rw [hns] at hfe
        simp only [Option.bind] at hfe
        constructor
        · simp [InMemoryCache.get, hns, hfe, hex]
        · simp [InMemoryCache.get, hns, hfe, hex, findEntry,
            assocGet_assocSet_self, assocGet_assocErase_self]
  · intro e h
    simp [CacheEntry.expired, h]
  · intro e ttlT h
    refine ⟨?_, ?_⟩
    · simp [CacheEntry.expired, h]
    · simp [CacheEntry.expired, h]

/-- Witness for C5: the entry stored in namespace scans with ttl 5 at time
100 misses at time 106 with the expired error and is deleted by the
lookup. -/
theorem C5_cache_get_semantics_witness :
    ((initCache.set "scans" "x" (Val.vnum 7) (some 5) 100).get "scans" "x" 106).1
        = .error (.cacheKeyError "scans:x (expired)") ∧
    findEntry
        (((initCache.set "scans" "x" (Val.vnum 7) (some 5) 100).get
          "scans" "x" 106).2) "scans" "x" = none :=
  (C5_cache_get_semantics (initCache.set "scans" "x" (Val.vnum 7) (some 5) 100)
      "scans" "x" 106).2.2.1 ⟨Val.vnum 7, 100, some 5⟩ (by rfl) (by rfl)

/-- Witness for C9 at the concrete namespace widgets, absent from the
freshly initialized cache. -/
theorem C9_warm_unknown_namespace_witness :
    initCache.warm "widgets" [("a", Val.vnum 1)] none 0
        = .error (.keyError "widgets") ∧
    (∀ s, PyExn.keyError "widgets" ≠ PyExn.attributeError s) ∧
    findEntry (initCache.set "widgets" "a" (Val.vnum 1) none 0) "widgets" "a"
        = some ⟨Val.vnum 1, 0, none⟩ :=
  C9_warm_unknown_namespace initCache "widgets" [("a", Val.vnum 1)] none 0
    "a" (Val.vnum 1) none (by rfl) (by simp)

end PytenableWas
